import Mathlib

/-!
Shallow embedding of the retrieval engine of the Clinical-Notes-Assistant
repository (healthcare_rag_backend/app/rag/retriever.py,
healthcare_rag_backend/app/rag/chain.py, healthcare_rag_backend/app/api/routes.py,
healthcare_rag_backend/app/core/config.py).

Modelling conventions:
- Python strings are `List Char`; Python floats are embedded as `ℚ` in the
  retrieval pipeline (where only comparisons and orderings matter) and as `ℝ`
  for `cosine_similarity` (where a square root is taken).
- The external embedding service (`get_embeddings`) is an oracle parameter;
  `none` stands for the call raising an exception.
- The Redis store is an association list of (key, record); `hset` + `sadd`
  on a fresh or existing key is upsert (`storePut`).
- A Python function that can raise returns `Except PyErr _`; an early
  `return` is an ordinary `.ok` value.
-/

/-- Python exceptions that the modelled code paths can raise:
`range(0, n, 0)` raises `ValueError`, and a failing `get_embeddings` call
(network/auth error) is `embeddingError` with the index of the chunk
being embedded when it was raised. -/
inductive PyErr where
  | valueError : PyErr
  | embeddingError : ℕ → PyErr
deriving DecidableEq, Repr

/-- The configuration values of `app/core/config.py` consumed by the
retrieval engine, with the defaults from that file. -/
structure Settings where
  chunkSize : ℕ := 1000
  chunkOverlap : ℕ := 200
  defaultTopK : ℕ := 4
  minSimilarityThreshold : ℚ := 3/10
deriving DecidableEq, Repr

/-- The settings object with every default of `config.py`. -/
def defaultSettings : Settings := {}

/-- Python truthiness-based defaulting `x or dflt` for an optional integer
argument: both `None` and `0` are falsy and replaced by the default. -/
def normArg (given : Option ℕ) (dflt : ℕ) : ℕ :=
  match given with
  | none => dflt
  | some 0 => dflt
  | some (n + 1) => n + 1

/-- The ASCII whitespace characters stripped by Python `str.strip()`. -/
def isPySpace (c : Char) : Bool :=
  c = ' ' || c = '\t' || c = '\n' || c = '\r' || c = '\x0b' || c = '\x0c'

/-- Truthiness of `s.strip()`: the string contains a non-whitespace char. -/
def stripNonempty (s : List Char) : Bool :=
  s.any (fun c => ! isPySpace c)

/-- Iteration worker for the window loop, structurally recursive on a fuel
bound (each iteration consumes at least the head character, so fuel equal to
the text length is always enough). -/
def slidingWindowsAux (size step : ℕ) : ℕ → List Char → List (List Char)
  | _, [] => []
  | 0, _ :: _ => []
  | fuel + 1, c :: cs =>
    (c :: cs).take size :: slidingWindowsAux size step fuel (cs.drop (step - 1))

/-- The windows `text[i:i+size]` for `i = 0, step, 2*step, ...` while
`i < len(text)`, i.e. the loop of `chunk_text` (retriever.py lines 70-71)
before the `strip` filter.  Only used with `step ≥ 1`; the step from a
nonempty text `c :: cs` advances to `cs.drop (step - 1)`, which is exactly
`(c :: cs).drop step`. -/
def slidingWindows (size step : ℕ) (text : List Char) : List (List Char) :=
  slidingWindowsAux size step text.length text

/-- The body of `chunk_text` after argument normalisation (retriever.py
lines 68-75): `range(0, len(text), size - overlap)` raises `ValueError`
when the step is zero, yields nothing when the step is negative, and
otherwise produces the sliding windows, of which the ones whose stripped
content is empty are dropped. -/
def chunkTextCore (text : List Char) (size overlap : ℕ) : Except PyErr (List (List Char)) :=
  if size = overlap then .error .valueError
  else if size < overlap then .ok []
  else .ok ((slidingWindows size (size - overlap) text).filter stripNonempty)

/-- `chunk_text(text, chunk_size, chunk_overlap)` (retriever.py lines 55-75):
each argument defaults via Python `or` (so `None` and `0` are both replaced
by the configured default), then the core loop runs. -/
def chunk_text (text : List Char) (chunkSize chunkOverlap : Option ℕ) (s : Settings) :
    Except PyErr (List (List Char)) :=
  chunkTextCore text (normArg chunkSize s.chunkSize) (normArg chunkOverlap s.chunkOverlap)

/-- `concat-with-overlap-removed`: the first chunk, then every later chunk
with its first `overlap` characters removed, concatenated. -/
def reconstructOverlap (overlap : ℕ) : List (List Char) → List Char
  | [] => []
  | c :: cs => c ++ (cs.map (List.drop overlap)).flatten


/-- An embedding vector (Python list of floats, embedded as rationals in the
retrieval pipeline, where only ordering matters). -/
abbrev Emb := List ℚ

/-- A chunk record stored under a Redis key: the `content`, `embedding` and
optional `document_id` hash fields (retriever.py lines 122-128, 174-181). -/
structure StoredDoc where
  content : List Char
  embedding : Emb
  documentId : Option String := none
deriving DecidableEq, Repr

/-- The Redis state relevant to retrieval: the association of chunk keys to
records.  The `documents` registry set is exactly the set of keys. -/
abbrev Store := List (String × StoredDoc)

/-- `hset` on a key plus `sadd` of the key to the registry: upsert. -/
def storePut : Store → String → StoredDoc → Store
  | [], k, d => [(k, d)]
  | (q, r) :: rest, k, d =>
    if q = k then (k, d) :: rest else (q, r) :: storePut rest k d

/-- Outcome of `load_and_store_documents`: the three normal-return paths of
retriever.py (early `return` at line 92 when the file is missing, early
`return` at line 110 when the content is blank, and completion at line 136
with the number of chunks stored). -/
inductive LoadResult where
  | fileNotFound : LoadResult
  | emptyFile : LoadResult
  | loaded : ℕ → LoadResult
deriving DecidableEq, Repr

/-- The storing loop of `load_and_store_documents` (retriever.py lines
117-134): each chunk is embedded and stored under `doc:<idx>`; a failing
embedding (`oracle` returning `none`) is caught, logged and skipped, and
the loop continues with the next chunk. -/
def loadChunksLoop (oracle : ℕ → List Char → Option Emb) :
    List (List Char) → ℕ → Store → ℕ → Store × ℕ
  | [], _, st, n => (st, n)
  | ch :: rest, idx, st, n =>
    match oracle idx ch with
    | none => loadChunksLoop oracle rest (idx + 1) st n
    | some e => loadChunksLoop oracle rest (idx + 1)
        (storePut st ("doc:" ++ toString idx) ⟨ch, e, none⟩) (n + 1)

/-- `load_and_store_documents(file_path, clear_existing)` (retriever.py lines
77-143).  `file` is the content of the source file, `none` when the file does
not exist; `oracle` models `get_embeddings` per chunk index (`none` = the
call raised).  Mirrors the source order: existence check, optional clear,
read, blank check, chunk, store loop. -/
def load_and_store_documents (file : Option (List Char)) (clearExisting : Bool)
    (oracle : ℕ → List Char → Option Emb) (s : Settings) (st : Store) :
    Store × Except PyErr LoadResult :=
  match file with
  | none => (st, .ok .fileNotFound)
  | some content =>
    let st1 := if clearExisting then [] else st
    if stripNonempty content then
      match chunk_text content none none s with
      | .error e => (st1, .error e)
      | .ok chunks =>
        let r := loadChunksLoop oracle chunks 0 st1 0
        (r.1, .ok (.loaded r.2))
    else (st1, .ok .emptyFile)

/-- The storing loop of `upload_and_store_document` (retriever.py lines
171-183): no per-chunk exception handler, so a failing embedding propagates
out of the loop immediately (re-raised at line 190), leaving the chunks
already stored in place. -/
def uploadChunksLoop (docId : String) (oracle : ℕ → List Char → Option Emb) :
    List (List Char) → ℕ → Store → Store × Except PyErr Unit
  | [], _, st => (st, .ok ())
  | ch :: rest, idx, st =>
    match oracle idx ch with
    | none => (st, .error (.embeddingError idx))
    | some e => uploadChunksLoop docId oracle rest (idx + 1)
        (storePut st (docId ++ ":chunk:" ++ toString idx) ⟨ch, e, some docId⟩)

/-- `upload_and_store_document(content, document_id)` (retriever.py lines
145-190): a falsy (`None` or empty) document id is auto-generated from the
registry cardinality; chunks are stored under `<docId>:chunk:<idx>`. -/
def upload_and_store_document (content : List Char) (documentId : Option String)
    (oracle : ℕ → List Char → Option Emb) (s : Settings) (st : Store) :
    Store × Except PyErr String :=
  let docId := match documentId with
    | none => "doc:" ++ toString st.length
    | some d => if d = "" then "doc:" ++ toString st.length else d
  match chunk_text content none none s with
  | .error e => (st, .error e)
  | .ok chunks =>
    match uploadChunksLoop docId oracle chunks 0 st with
    | (st2, .ok _) => (st2, .ok docId)
    | (st2, .error e) => (st2, .error e)

/-- One entry of the result of `retrieve_similar_documents`
(retriever.py lines 232-236). -/
structure SearchHit where
  key : String
  content : List Char
  similarity : ℚ
deriving DecidableEq, Repr

/-- The ordering used to sort hits: descending similarity
(`similarities.sort(key=lambda x: x["similarity"], reverse=True)`,
retriever.py line 242). -/
def hitRel (a b : SearchHit) : Prop := b.similarity ≤ a.similarity

instance : DecidableRel hitRel :=
  fun a b => inferInstanceAs (Decidable (b.similarity ≤ a.similarity))

instance : IsTotal SearchHit hitRel :=
  ⟨fun a b => le_total b.similarity a.similarity⟩

instance : IsTrans SearchHit hitRel :=
  ⟨fun _ _ _ h1 h2 => le_trans h2 h1⟩

/-- `retrieve_similar_documents(query, k, min_similarity)` (retriever.py
lines 192-246).  `qEmb` is the embedding of the query (the `get_embeddings`
call at line 216); `simf` is the similarity function applied to the query
embedding and each stored embedding (`cosine_similarity` over floats,
modelled separately over `ℝ`).  `k` defaults via Python `or` (line 210:
`None` and `0` both falsy); `min_similarity` defaults only when `None`
(line 211).  Every stored chunk is scored, filtered by the threshold,
sorted by descending similarity (Python `list.sort` is a stable sort,
modelled by a stable insertion sort) and truncated to `k`. -/
def retrieve_similar_documents (qEmb : Emb) (simf : Emb → Emb → ℚ)
    (k : Option ℕ) (minSimilarity : Option ℚ) (s : Settings) (st : Store) :
    List SearchHit :=
  let kv := normArg k s.defaultTopK
  let minSim := minSimilarity.getD s.minSimilarityThreshold
  let hits := st.filterMap (fun p =>
    let sim := simf qEmb p.2.embedding
    if minSim ≤ sim then some (⟨p.1, p.2.content, sim⟩ : SearchHit) else none)
  (List.insertionSort hitRel hits).take kv

/-- The request body of `POST /ask` (routes.py lines 19-25): its exact
fields.  There is no `min_similarity` field. -/
structure QueryRequest where
  question : List Char
  k : Option ℕ := none
  model : Option String := none
  temperature : Option ℚ := none
  stream : Option Bool := some false
  apiKey : Option String := none

/-- The retrieval step of `build_chain_async` (chain.py lines 121-133), as
invoked by the `/ask` route with the request's fields: `k` is normalised by
Python `or` against the configured default, and the `min_similarity`
argument of `retrieve_similar_documents` is the literal `0.0`
(chain.py line 131). -/
def build_chain_async_retrieve (embedQ : List Char → Emb) (simf : Emb → Emb → ℚ)
    (req : QueryRequest) (s : Settings) (st : Store) : List SearchHit :=
  let kv := normArg req.k s.defaultTopK
  retrieve_similar_documents (embedQ req.question) simf (some kv) (some 0) s st

/-- `sum(x * y for x, y in zip(a, b))` (retriever.py line 287). -/
noncomputable def dotList (a b : List ℝ) : ℝ :=
  ((a.zip b).map (fun p => p.1 * p.2)).sum

/-- `math.sqrt(sum(x ** 2 for x in a))` (retriever.py lines 288-289). -/
noncomputable def l2norm (a : List ℝ) : ℝ :=
  Real.sqrt ((a.map (fun x => x ^ 2)).sum)

/-- `cosine_similarity(a, b)` (retriever.py lines 284-292), with Python
floats embedded as reals: `0` when either norm is zero, else the normalised
dot product. -/
noncomputable def cosine_similarity (a b : List ℝ) : ℝ :=
  if l2norm a = 0 ∨ l2norm b = 0 then 0
  else dotList a b / (l2norm a * l2norm b)


lemma slidingWindowsAux_congr (size step : ℕ) :
    ∀ (f₁ f₂ : ℕ) (t : List Char), t.length ≤ f₁ → t.length ≤ f₂ →
      slidingWindowsAux size step f₁ t = slidingWindowsAux size step f₂ t := by
  intro f₁
  induction f₁ with
  | zero =>
    intro f₂ t h1 _
    have ht : t = [] := List.eq_nil_of_length_eq_zero (Nat.le_zero.mp h1)
    subst ht
    cases f₂ <;> rfl
  | succ f ih =>
    intro f₂ t h1 h2
    match t, f₂ with
    | [], f₂ => cases f₂ <;> rfl
    | c :: cs, 0 => simp at h2
    | c :: cs, g + 1 =>
      simp only [slidingWindowsAux]
      congr 1
      apply ih
      · simp only [List.length_drop]
        simp only [List.length_cons] at h1
        omega
      · simp only [List.length_drop]
        simp only [List.length_cons] at h2
        omega

lemma slidingWindows_nil (size step : ℕ) : slidingWindows size step [] = [] := rfl

lemma slidingWindows_cons (size step : ℕ) (c : Char) (cs : List Char) :
    slidingWindows size step (c :: cs) =
      (c :: cs).take size :: slidingWindows size step (cs.drop (step - 1)) := by
  show slidingWindowsAux size step (cs.length + 1) (c :: cs) = _
  simp only [slidingWindowsAux]
  congr 1
  exact slidingWindowsAux_congr size step cs.length (cs.drop (step - 1)).length _
    (by simp only [List.length_drop]; omega) (le_refl _)

lemma slidingWindows_cons_drop (size step : ℕ) (hstep : 0 < step) (c : Char) (cs : List Char) :
    slidingWindows size step (c :: cs) =
      (c :: cs).take size :: slidingWindows size step ((c :: cs).drop step) := by
  rw [slidingWindows_cons]
  obtain ⟨m, rfl⟩ := Nat.exists_eq_add_of_lt hstep
  simp [List.drop_succ_cons]

lemma slidingWindows_sublist_bounded (size step : ℕ) :
    ∀ (n : ℕ) (text : List Char), text.length ≤ n →
      ∀ w ∈ slidingWindows size step text, w.Sublist text := by
  intro n
  induction n with
  | zero =>
    intro text hlen w hw
    have ht : text = [] := List.eq_nil_of_length_eq_zero (Nat.le_zero.mp hlen)
    subst ht
    simp [slidingWindows_nil] at hw
  | succ n ih =>
    intro text hlen w hw
    match text with
    | [] => simp [slidingWindows_nil] at hw
    | c :: cs =>
      rw [slidingWindows_cons, List.mem_cons] at hw
      rcases hw with rfl | hw
      · exact List.take_sublist _ _
      · have hlen2 : (cs.drop (step - 1)).length ≤ n := by
          simp only [List.length_drop]
          simp only [List.length_cons] at hlen
          omega
        exact ((ih (cs.drop (step - 1)) hlen2 w hw).trans
          (List.drop_sublist _ _)).trans (List.sublist_cons_self c cs)

/-- Every window produced by the chunking loop is a sublist of the text. -/
lemma slidingWindows_sublist (size step : ℕ) (text : List Char) :
    ∀ w ∈ slidingWindows size step text, w.Sublist text :=
  slidingWindows_sublist_bounded size step text.length text (le_refl _)

/-- Core reconstruction lemma: with step `size - overlap > 0`, removing the
first `overlap` characters of every window but the first and concatenating
recovers the original text. -/
lemma reconstructOverlap_slidingWindows (size overlap : ℕ) (hov : overlap < size) :
    ∀ text : List Char,
      reconstructOverlap overlap (slidingWindows size (size - overlap) text) = text := by
  have hstep : 0 < size - overlap := Nat.sub_pos_of_lt hov
  suffices H : ∀ (n : ℕ) (text : List Char), text.length ≤ n →
      reconstructOverlap overlap (slidingWindows size (size - overlap) text) = text by
    intro text
    exact H text.length text (le_refl _)
  intro n
  induction n with
  | zero =>
    intro text hlen
    have ht : text = [] := List.eq_nil_of_length_eq_zero (Nat.le_zero.mp hlen)
    subst ht
    simp [slidingWindows_nil, reconstructOverlap]
  | succ n ihn =>
    intro text hlen
    match text with
    | [] => simp [slidingWindows_nil, reconstructOverlap]
    | c :: cs =>
    have ih : reconstructOverlap overlap
        (slidingWindows size (size - overlap) (cs.drop (size - overlap - 1))) =
        cs.drop (size - overlap - 1) := by
      apply ihn
      simp only [List.length_drop]
      simp only [List.length_cons] at hlen
      omega
    have hdt : (c :: cs).drop (size - overlap) = cs.drop (size - overlap - 1) := by
      obtain ⟨m, hm⟩ := Nat.exists_eq_add_of_lt hstep
      rw [hm]
      simp [List.drop_succ_cons]
    have ihd : reconstructOverlap overlap
        (slidingWindows size (size - overlap) ((c :: cs).drop (size - overlap))) =
        (c :: cs).drop (size - overlap) := by
      rw [hdt]; exact ih
    rw [slidingWindows_cons, ← hdt]
    rcases hdrop : (c :: cs).drop (size - overlap) with _ | ⟨d, ds⟩
    · -- the whole text fits in the first window
      have hlen : (c :: cs).length ≤ size - overlap := by
        have hl := congrArg List.length hdrop
        simp only [List.length_drop, List.length_nil] at hl
        omega
      rw [slidingWindows_nil]
      simp only [reconstructOverlap, List.map_nil, List.flatten_nil, List.append_nil]
      exact List.take_of_length_le (hlen.trans (Nat.sub_le size overlap))
    · -- at least one more window follows
      have hwin : slidingWindows size (size - overlap) ((c :: cs).drop (size - overlap)) =
          ((c :: cs).drop (size - overlap)).take size ::
            slidingWindows size (size - overlap)
              (((c :: cs).drop (size - overlap)).drop (size - overlap)) := by
        rw [hdrop]
        exact slidingWindows_cons_drop size (size - overlap) hstep d ds
      rw [hwin] at ihd
      rw [← hdrop, hwin]
      simp only [reconstructOverlap, List.map_cons, List.flatten_cons] at ihd ⊢
      have hjoin : ((slidingWindows size (size - overlap)
            (((c :: cs).drop (size - overlap)).drop (size - overlap))).map
              (List.drop overlap)).flatten =
          ((c :: cs).drop (size - overlap)).drop size := by
        have hsplit := ihd.trans (List.take_append_drop size ((c :: cs).drop (size - overlap))).symm
        exact List.append_cancel_left hsplit
      have hdropov : List.drop overlap (((c :: cs).drop (size - overlap)).take size) =
          List.take (size - overlap) ((c :: cs).drop size) := by
        rw [List.drop_take, List.drop_drop]
        congr 2
        omega
      rw [hjoin, hdropov, List.drop_drop]
      have hfin : size - overlap + size = size + (size - overlap) := by omega
      rw [hfin, ← List.append_assoc, ← List.take_add, List.take_append_drop]
lemma normArg_pos (n d : ℕ) (hn : 0 < n) : normArg (some n) d = n := by
  match n, hn with
  | m + 1, _ => rfl

/-- `retrieve_similar_documents` with an explicitly supplied threshold,
written without the intermediate `let`s. -/
lemma retrieve_eq (qEmb : Emb) (simf : Emb → Emb → ℚ) (k : Option ℕ) (ms : ℚ)
    (s : Settings) (st : Store) :
    retrieve_similar_documents qEmb simf k (some ms) s st =
      (List.insertionSort hitRel (st.filterMap (fun p =>
        if ms ≤ simf qEmb p.2.embedding
        then some (⟨p.1, p.2.content, simf qEmb p.2.embedding⟩ : SearchHit)
        else none))).take (normArg k s.defaultTopK) := rfl

/-- Every returned hit passed the supplied threshold check. -/
lemma retrieve_mem_threshold (qEmb : Emb) (simf : Emb → Emb → ℚ) (k : Option ℕ)
    (ms : ℚ) (s : Settings) (st : Store) :
    ∀ h ∈ retrieve_similar_documents qEmb simf k (some ms) s st,
      ms ≤ h.similarity := by
  intro h hmem
  rw [retrieve_eq] at hmem
  have h1 : h ∈ List.insertionSort hitRel (st.filterMap (fun p =>
      if ms ≤ simf qEmb p.2.embedding
      then some (⟨p.1, p.2.content, simf qEmb p.2.embedding⟩ : SearchHit)
      else none)) := (List.take_sublist _ _).subset hmem
  have h2 := (List.perm_insertionSort hitRel _).subset h1
  rw [List.mem_filterMap] at h2
  obtain ⟨p, _, heq⟩ := h2
  by_cases hc : ms ≤ simf qEmb p.2.embedding
  · rw [if_pos hc] at heq
    cases heq
    exact hc
  · rw [if_neg hc] at heq
    cases heq

/-- The returned hits are in descending order of similarity. -/
lemma retrieve_sorted (qEmb : Emb) (simf : Emb → Emb → ℚ) (k : Option ℕ)
    (ms : ℚ) (s : Settings) (st : Store) :
    List.Pairwise (fun a b : SearchHit => b.similarity ≤ a.similarity)
      (retrieve_similar_documents qEmb simf k (some ms) s st) := by
  rw [retrieve_eq]
  exact List.Pairwise.sublist (List.take_sublist _ _)
    (List.sorted_insertionSort hitRel _)

lemma filterMap_replicate_some {α β : Type} (f : α → Option β) (x : α) (y : β)
    (hf : f x = some y) (n : ℕ) :
    (List.replicate n x).filterMap f = List.replicate n y := by
  induction n with
  | zero => rfl
  | succ n ih => simp [List.replicate_succ, List.filterMap_cons, hf, ih]

/-- The loop of the bulk load stores a chunk for exactly the indices at
which the embedding call succeeds: a failure is skipped and every later
chunk is still processed. -/
lemma loadChunksLoop_count (oracle : ℕ → List Char → Option Emb) :
    ∀ (chs : List (List Char)) (idx : ℕ) (st : Store) (n : ℕ),
      (loadChunksLoop oracle chs idx st n).2 =
        n + ((List.enumFrom idx chs).filter
          (fun p => (oracle p.1 p.2).isSome)).length := by
  intro chs
  induction chs with
  | nil => intro idx st n; simp [loadChunksLoop]
  | cons c rest ih =>
    intro idx st n
    rcases hoc : oracle idx c with _ | e
    · simp only [loadChunksLoop, hoc, List.enumFrom_cons, List.filter_cons,
        Option.isSome_none, Bool.false_eq_true, if_false, ih]
    · simp only [loadChunksLoop, hoc, List.enumFrom_cons, List.filter_cons,
        Option.isSome_some, if_true, List.length_cons, ih]
      omega

/-- The loop of the upload finishes normally iff the embedding call succeeds
on every chunk; the first failure aborts it with the exception. -/
lemma uploadChunksLoop_ok_iff (docId : String) (oracle : ℕ → List Char → Option Emb) :
    ∀ (chs : List (List Char)) (idx : ℕ) (st : Store),
      (uploadChunksLoop docId oracle chs idx st).2 = .ok () ↔
        ∀ p ∈ List.enumFrom idx chs, (oracle p.1 p.2).isSome = true := by
  intro chs
  induction chs with
  | nil => intro idx st; simp [uploadChunksLoop]
  | cons c rest ih =>
    intro idx st
    rcases hoc : oracle idx c with _ | e
    · simp [uploadChunksLoop, hoc, List.enumFrom_cons]
    · simp only [uploadChunksLoop, hoc, List.enumFrom_cons, List.mem_cons, ih]
      constructor
      · intro hall p hp
        rcases hp with rfl | hp
        · simp [hoc]
        · exact hall p hp
      · intro hall p hp
        exact hall p (Or.inr hp)

/-- A text whose length is at most the step yields a single window. -/
lemma slidingWindows_single (size step : ℕ) (t : List Char) (ht : t ≠ [])
    (hlen : t.length ≤ step) : slidingWindows size step t = [t.take size] := by
  match t, ht with
  | c :: cs, _ =>
    rw [slidingWindows_cons]
    have hnil : cs.drop (step - 1) = [] := by
      apply List.drop_eq_nil_of_le
      simp only [List.length_cons] at hlen
      omega
    rw [hnil, slidingWindows_nil]

/-- All windows of a whitespace-only text are filtered out. -/
lemma slidingWindows_whitespace (size step : ℕ) (t : List Char)
    (h : stripNonempty t = false) :
    (slidingWindows size step t).filter stripNonempty = [] := by
  rw [List.filter_eq_nil_iff]
  intro w hw hcontra
  have hsub := (slidingWindows_sublist size step t w hw).subset
  simp only [stripNonempty, List.any_eq_true] at hcontra
  obtain ⟨c, hcw, hcp⟩ := hcontra
  simp only [stripNonempty, List.any_eq_false] at h
  exact (h c (hsub hcw)) hcp

lemma normArg_norm (x : Option ℕ) (d : ℕ) :
    normArg (some (normArg x d)) d = normArg x d := by
  match x with
  | none => cases d <;> rfl
  | some 0 => cases d <;> rfl
  | some (n + 1) => rfl

/-- C6: for a fixed `(text, size, overlap)` with `0 < overlap < size`,
`chunk_text` always returns the same sequence (it is a pure function of its
arguments), and when no window was dropped by the whitespace filter,
concatenating the chunks after removing the first `overlap` characters of
every chunk except the first reconstructs the original text exactly. -/
theorem chunk_text_deterministic_reconstruct (s : Settings) (text : List Char)
    (size overlap : ℕ) (hov : 0 < overlap) (hlt : overlap < size) :
    chunk_text text (some size) (some overlap) s =
      chunk_text text (some size) (some overlap) s ∧
    ((slidingWindows size (size - overlap) text).all stripNonempty = true →
      chunk_text text (some size) (some overlap) s =
        .ok (slidingWindows size (size - overlap) text) ∧
      reconstructOverlap overlap (slidingWindows size (size - overlap) text) = text) := by
  refine ⟨rfl, fun hall =>
    ⟨?_, reconstructOverlap_slidingWindows size overlap hlt text⟩⟩
  unfold chunk_text chunkTextCore
  rw [normArg_pos size s.chunkSize (by omega), normArg_pos overlap s.chunkOverlap hov,
    if_neg (by omega : ¬ size = overlap), if_neg (by omega : ¬ size < overlap)]
  congr 1
  rw [List.filter_eq_self]
  intro a ha
  exact List.all_eq_true.mp hall a ha

/-- Witness for C6 at text "ab", size 3, overlap 1 (one window, kept). -/
theorem chunk_text_deterministic_reconstruct_witness :
    chunk_text ['a', 'b'] (some 3) (some 1) defaultSettings = .ok [['a', 'b']] ∧
    reconstructOverlap 1 [['a', 'b']] = ['a', 'b'] :=
  (chunk_text_deterministic_reconstruct defaultSettings ['a', 'b'] 3 1
    (by decide) (by decide)).2 (by decide)

/-- C7 counterexample: the 9-character text "abcdefghi" is shorter than the
chunk size 10, yet with overlap 2 `chunk_text` returns TWO chunks: the loop
step is `size - overlap = 8 < 9`, so a second window `text[8:18] = "i"` is
produced.  This refutes "text shorter than the chunk size yields exactly
one chunk equal to the whole input text". -/
theorem chunk_short_text_two_chunks :
    chunk_text ['a', 'b', 'c', 'd', 'e', 'f', 'g', 'h', 'i']
        (some 10) (some 2) defaultSettings =
      .ok [['a', 'b', 'c', 'd', 'e', 'f', 'g', 'h', 'i'], ['i']] ∧
    (['a', 'b', 'c', 'd', 'e', 'f', 'g', 'h', 'i'] : List Char).length < 10 :=
  ⟨rfl, by decide⟩

/-- C7 amended: a non-blank text of length at most `size - overlap` (not
merely shorter than `size`) yields exactly one chunk equal to the whole
text; an empty or whitespace-only text yields zero chunks. -/
theorem chunk_text_boundary (s : Settings) (text : List Char) (size overlap : ℕ)
    (hov : 0 < overlap) (hlt : overlap < size) :
    (stripNonempty text = true → text.length ≤ size - overlap →
      chunk_text text (some size) (some overlap) s = .ok [text]) ∧
    (stripNonempty text = false →
      chunk_text text (some size) (some overlap) s = .ok []) := by
  have hnorm : chunk_text text (some size) (some overlap) s =
      .ok ((slidingWindows size (size - overlap) text).filter stripNonempty) := by
    unfold chunk_text chunkTextCore
    rw [normArg_pos size s.chunkSize (by omega), normArg_pos overlap s.chunkOverlap hov,
      if_neg (by omega : ¬ size = overlap), if_neg (by omega : ¬ size < overlap)]
  constructor
  · intro hnb hlen
    have hne : text ≠ [] := by
      intro he
      rw [he] at hnb
      simp [stripNonempty] at hnb
    rw [hnorm, slidingWindows_single size (size - overlap) text hne hlen]
    have htake : text.take size = text :=
      List.take_of_length_le (hlen.trans (Nat.sub_le size overlap))
    rw [htake]
    simp [List.filter_cons, hnb]
  · intro hws
    rw [hnorm, slidingWindows_whitespace size (size - overlap) text hws]

/-- Witness for C7 amended at text "a", size 3, overlap 1. -/
theorem chunk_text_boundary_witness :
    chunk_text ['a'] (some 3) (some 1) defaultSettings = .ok [['a']] :=
  (chunk_text_boundary defaultSettings ['a'] 3 1 (by decide) (by decide)).1
    (by decide) (by decide)

/-- C9 counterexample: `chunk_text("a", chunk_size=200, chunk_overlap=0)`
satisfies the claimed precondition `0 ≤ overlap < size`, but Python `or`
replaces the falsy overlap `0` by the configured default `200`
(retriever.py line 67), so the step is `200 - 200 = 0` and
`range(0, len, 0)` raises ValueError — the call raises although the claim
says it raises no exception. -/
theorem chunk_overlap_zero_raises :
    (0 : ℕ) ≤ 0 ∧ (0 : ℕ) < 200 ∧
    chunk_text ['a'] (some 200) (some 0) defaultSettings = .error .valueError :=
  ⟨le_refl 0, by decide, rfl⟩

/-- C9 amended: for explicitly supplied arguments with `0 < overlap < size`
(a positive overlap is not replaced by the default), `chunk_text` is total
and returns normally; with `0 < overlap = size` the step is zero and the
call raises ValueError.  An overlap of `0` is falsy and is replaced by the
configured default overlap, so the claimed precondition `0 ≤ overlap` is
not sufficient for safety. -/
theorem chunk_text_termination (s : Settings) (text : List Char) (size overlap : ℕ) :
    (0 < overlap → overlap < size →
      ∃ chunks, chunk_text text (some size) (some overlap) s = .ok chunks) ∧
    (0 < overlap → overlap = size →
      chunk_text text (some size) (some overlap) s = .error .valueError) := by
  constructor
  · intro hov hlt
    refine ⟨(slidingWindows size (size - overlap) text).filter stripNonempty, ?_⟩
    unfold chunk_text chunkTextCore
    rw [normArg_pos size s.chunkSize (by omega), normArg_pos overlap s.chunkOverlap hov,
      if_neg (by omega : ¬ size = overlap), if_neg (by omega : ¬ size < overlap)]
  · intro hov heq
    subst heq
    unfold chunk_text chunkTextCore
    rw [normArg_pos overlap s.chunkSize hov, normArg_pos overlap s.chunkOverlap hov,
      if_pos rfl]

/-- Witness for C9 amended: a safe call and a raising call. -/
theorem chunk_text_termination_witness :
    (∃ chunks, chunk_text ['a'] (some 3) (some 1) defaultSettings = .ok chunks) ∧
    chunk_text ['a'] (some 3) (some 3) defaultSettings = .error .valueError :=
  ⟨(chunk_text_termination defaultSettings ['a'] 3 1).1 (by decide) (by decide),
   (chunk_text_termination defaultSettings ['a'] 3 3).2 (by decide) rfl⟩

/-- C4: for every query embedding, every `k ≥ 1` and every threshold,
`retrieve_similar_documents` returns a sequence of (key, content,
similarity) entries of length at most `k`, sorted in descending order of
similarity, every entry's similarity at least the threshold. -/
theorem retrieve_similar_documents_contract (qEmb : Emb) (simf : Emb → Emb → ℚ)
    (kv : ℕ) (ms : ℚ) (s : Settings) (st : Store) (hk : 1 ≤ kv) :
    (retrieve_similar_documents qEmb simf (some kv) (some ms) s st).length ≤ kv ∧
    List.Pairwise (fun a b : SearchHit => b.similarity ≤ a.similarity)
      (retrieve_similar_documents qEmb simf (some kv) (some ms) s st) ∧
    ∀ h ∈ retrieve_similar_documents qEmb simf (some kv) (some ms) s st,
      ms ≤ h.similarity := by
  refine ⟨?_, retrieve_sorted qEmb simf (some kv) ms s st,
    retrieve_mem_threshold qEmb simf (some kv) ms s st⟩
  rw [retrieve_eq, normArg_pos kv s.defaultTopK hk]
  exact List.length_take_le kv _

/-- Witness for C4 on a four-chunk store with similarities
[1/2, 9/10, 1/10, 7/10], k = 3, threshold 3/10. -/
theorem retrieve_similar_documents_contract_witness :
    (retrieve_similar_documents [] (fun _ e => e.headD 0) (some 3) (some (3/10))
      defaultSettings
      [("a", ⟨['a'], [1/2], none⟩), ("b", ⟨['b'], [9/10], none⟩),
       ("c", ⟨['c'], [1/10], none⟩), ("d", ⟨['d'], [7/10], none⟩)]).length ≤ 3 ∧
    List.Pairwise (fun a b : SearchHit => b.similarity ≤ a.similarity)
      (retrieve_similar_documents [] (fun _ e => e.headD 0) (some 3) (some (3/10))
        defaultSettings
        [("a", ⟨['a'], [1/2], none⟩), ("b", ⟨['b'], [9/10], none⟩),
         ("c", ⟨['c'], [1/10], none⟩), ("d", ⟨['d'], [7/10], none⟩)]) ∧
    ∀ h ∈ retrieve_similar_documents [] (fun _ e => e.headD 0) (some 3) (some (3/10))
        defaultSettings
        [("a", ⟨['a'], [1/2], none⟩), ("b", ⟨['b'], [9/10], none⟩),
         ("c", ⟨['c'], [1/10], none⟩), ("d", ⟨['d'], [7/10], none⟩)],
      (3 : ℚ)/10 ≤ h.similarity :=
  retrieve_similar_documents_contract [] (fun _ e => e.headD 0) 3 (3/10)
    defaultSettings
    [("a", ⟨['a'], [1/2], none⟩), ("b", ⟨['b'], [9/10], none⟩),
     ("c", ⟨['c'], [1/10], none⟩), ("d", ⟨['d'], [7/10], none⟩)] (by decide)

/-- C10: `retrieve_similar_documents` treats `k = 0` like `k = None` (both
falsy under Python `or`, both replaced by the configured default top-K, so
a `k = 0` call can return up to `DEFAULT_TOP_K` results), while a supplied
`min_similarity = 0.0` is honored as given (only `None` is replaced by the
configured default threshold). -/
theorem retrieve_k_zero_treated_as_none (qEmb : Emb) (simf : Emb → Emb → ℚ)
    (ms : Option ℚ) (kopt : Option ℕ) (m c : ℚ) (s : Settings) (st : Store) :
    retrieve_similar_documents qEmb simf (some 0) ms s st =
      retrieve_similar_documents qEmb simf none ms s st ∧
    retrieve_similar_documents qEmb simf kopt (some m)
        { s with minSimilarityThreshold := c } st =
      retrieve_similar_documents qEmb simf kopt (some m) s st ∧
    ∃ docs : Store,
      (retrieve_similar_documents qEmb (fun _ _ => 0) (some 0) (some 0) s docs).length
        = s.defaultTopK := by
  refine ⟨rfl, rfl, ⟨List.replicate s.defaultTopK ("doc:0", ⟨[], [], none⟩), ?_⟩⟩
  rw [retrieve_eq]
  rw [filterMap_replicate_some _ _ (⟨"doc:0", [], 0⟩ : SearchHit) (by decide)
    s.defaultTopK]
  rw [List.length_take, (List.perm_insertionSort hitRel _).length_eq,
    List.length_replicate]
  show min s.defaultTopK s.defaultTopK = s.defaultTopK
  exact Nat.min_self _

/-- C3 counterexample: the `/ask` request body (`QueryRequest`, routes.py
lines 19-25) has no `min_similarity` field, and `build_chain_async` passes
the literal `0.0` as the threshold (chain.py line 131).  Here the ask
retrieval returns a chunk of similarity 0 even though the configured
default threshold is 3/10: the retrieval filter of the ask operation uses
neither a caller-provided nor the configured threshold, only the fixed 0. -/
theorem ask_min_similarity_not_honored :
    build_chain_async_retrieve (fun _ => []) (fun _ _ => 0)
        ⟨['q'], none, none, none, some false, none⟩ defaultSettings
        [("doc:0", ⟨['x'], [], none⟩)] =
      [⟨"doc:0", ['x'], 0⟩] ∧
    ¬ (defaultSettings.minSimilarityThreshold ≤ 0) := by
  refine ⟨by decide, ?_⟩
  show ¬ ((3 : ℚ)/10 ≤ 0)
  norm_num

/-- C3 amended: the ask operation accepts no `min_similarity` parameter
(`QueryRequest` has only question, k, model, temperature, stream, api_key);
its retrieval step always filters with the fixed threshold `0.0`: the
result does not depend on the configured default threshold (only on the
default top-K), and every returned source has similarity ≥ 0. -/
theorem ask_retrieval_fixed_zero_threshold (embedQ : List Char → Emb)
    (simf : Emb → Emb → ℚ) (req : QueryRequest) (s₁ s₂ : Settings) (st : Store)
    (htop : s₁.defaultTopK = s₂.defaultTopK) :
    build_chain_async_retrieve embedQ simf req s₁ st =
      build_chain_async_retrieve embedQ simf req s₂ st ∧
    ∀ h ∈ build_chain_async_retrieve embedQ simf req s₁ st, 0 ≤ h.similarity := by
  constructor
  · show retrieve_similar_documents (embedQ req.question) simf
        (some (normArg req.k s₁.defaultTopK)) (some 0) s₁ st =
      retrieve_similar_documents (embedQ req.question) simf
        (some (normArg req.k s₂.defaultTopK)) (some 0) s₂ st
    rw [retrieve_eq, retrieve_eq, htop]
  · exact retrieve_mem_threshold (embedQ req.question) simf
      (some (normArg req.k s₁.defaultTopK)) 0 s₁ st

/-- Witness for C3 amended: two settings differing only in the default
threshold give the ask retrieval the same answer. -/
theorem ask_retrieval_fixed_zero_threshold_witness :
    build_chain_async_retrieve (fun _ => []) (fun _ _ => 1/10)
        ⟨['q'], none, none, none, some false, none⟩ defaultSettings
        [("doc:0", ⟨['x'], [], none⟩)] =
      build_chain_async_retrieve (fun _ => []) (fun _ _ => 1/10)
        ⟨['q'], none, none, none, some false, none⟩
        { defaultSettings with minSimilarityThreshold := 9/10 }
        [("doc:0", ⟨['x'], [], none⟩)] ∧
    ∀ h ∈ build_chain_async_retrieve (fun _ => []) (fun _ _ => 1/10)
        ⟨['q'], none, none, none, some false, none⟩ defaultSettings
        [("doc:0", ⟨['x'], [], none⟩)], 0 ≤ h.similarity :=
  ask_retrieval_fixed_zero_threshold (fun _ => []) (fun _ _ => 1/10)
    ⟨['q'], none, none, none, some false, none⟩ defaultSettings
    { defaultSettings with minSimilarityThreshold := 9/10 }
    [("doc:0", ⟨['x'], [], none⟩)] rfl

/-- C1 counterexample: a missing source file makes `load_and_store_documents`
log a warning and RETURN NORMALLY (the early `return` at retriever.py line
92), and a present-but-blank file likewise returns normally (line 110).  No
`CorpusNotFound` or `EmptyCorpus` error exists anywhere in the code, so the
claim that the call fails and "in neither case does the call return
normally" is false: here both calls return `.ok` outcomes. -/
theorem load_missing_blank_counterexample :
    load_and_store_documents none false (fun _ _ => none) defaultSettings [] =
      ([], .ok .fileNotFound) ∧
    load_and_store_documents (some [' ']) false (fun _ _ => none) defaultSettings [] =
      ([], .ok .emptyFile) :=
  ⟨rfl, rfl⟩

/-- C1 amended: a missing source file makes the load log and return
normally with nothing stored, and a present-but-blank file makes it log and
return normally, storing nothing (the store is only cleared when
`clear_existing` was requested, which the code does before the blank
check); the call raises no exception in either case. -/
theorem load_missing_blank_returns_normally (oracle : ℕ → List Char → Option Emb)
    (s : Settings) (st : Store) (clear : Bool) :
    load_and_store_documents none clear oracle s st = (st, .ok .fileNotFound) ∧
    ∀ content : List Char, stripNonempty content = false →
      load_and_store_documents (some content) clear oracle s st =
        (if clear then [] else st, .ok .emptyFile) := by
  refine ⟨rfl, fun content h => ?_⟩
  simp [load_and_store_documents, h]

/-- Witness for C1 amended: loading a blank file over a nonempty store with
`clear_existing = false` keeps the store and reports the blank file. -/
theorem load_missing_blank_returns_normally_witness :
    load_and_store_documents (some [' ']) false (fun _ _ => none) defaultSettings
        [("k", ⟨['x'], [], none⟩)] =
      ([("k", ⟨['x'], [], none⟩)], .ok .emptyFile) :=
  (load_missing_blank_returns_normally (fun _ _ => none) defaultSettings
    [("k", ⟨['x'], [], none⟩)] false).2 [' '] (by decide)

/-- C5 counterexample: loading a nonblank two-character file while every
embedding call fails stores zero chunks, yet the call returns normally with
`.loaded 0` (retriever.py line 136 logs "Successfully stored 0").  No
`CorpusLoadError` exists in the code and nothing is raised, so the claim
that a zero-stored load attempt fails is false. -/
theorem load_zero_stored_counterexample :
    load_and_store_documents (some ['a', 'b']) false (fun _ _ => none)
        defaultSettings [] = ([], .ok (.loaded 0)) :=
  rfl

/-- C5 amended: a load attempt whose content passes the blank check always
returns normally with a `.loaded` count — whether zero or more chunks were
stored; the code only logs the stored count and cannot fail with any
`CorpusLoadError` (under any embedding-failure pattern). -/
theorem load_always_returns_loaded_count (content : List Char)
    (oracle : ℕ → List Char → Option Emb) (s : Settings) (st : Store)
    (hne : s.chunkSize ≠ s.chunkOverlap) (hnb : stripNonempty content = true) :
    ∃ n : ℕ, (load_and_store_documents (some content) false oracle s st).2 =
      .ok (.loaded n) := by
  obtain ⟨chunks, hch⟩ : ∃ chunks, chunk_text content none none s = .ok chunks := by
    unfold chunk_text chunkTextCore
    simp only [normArg]
    by_cases hlt : s.chunkSize < s.chunkOverlap
    · rw [if_neg hne, if_pos hlt]
      exact ⟨[], rfl⟩
    · rw [if_neg hne, if_neg hlt]
      exact ⟨_, rfl⟩
  refine ⟨(loadChunksLoop oracle chunks 0 st 0).2, ?_⟩
  simp [load_and_store_documents, hnb, hch]

/-- Witness for C5 amended at the counterexample input. -/
theorem load_always_returns_loaded_count_witness :
    ∃ n : ℕ, (load_and_store_documents (some ['a', 'b']) false (fun _ _ => none)
      defaultSettings []).2 = .ok (.loaded n) :=
  load_always_returns_loaded_count ['a', 'b'] (fun _ _ => none) defaultSettings []
    (by decide) (by decide)

/-- C2 counterexample: uploading "abcde" with chunk size 3 and overlap 1
produces the chunks ["abc", "cde", "e"]; the embedding of chunk 0 fails and
the whole upload aborts with the exception — chunks 1 and 2 are never
processed and nothing is stored.  This refutes "the remaining chunks are
still processed; a single chunk failure never aborts the whole operation"
for `upload_and_store_document`. -/
theorem upload_chunk_failure_aborts :
    upload_and_store_document ['a', 'b', 'c', 'd', 'e'] (some "d1")
        (fun i _ => if i = 0 then none else some [1])
        { chunkSize := 3, chunkOverlap := 1 } [] =
      ([], .error (.embeddingError 0)) :=
  rfl

/-- C2 amended: the per-chunk catch-log-skip policy holds only for
`load_and_store_documents`: its stored count equals the number of chunk
indices whose embedding succeeds, so chunks after a failure are still
processed and the call returns normally.  `upload_and_store_document` has
no per-chunk handler: it finishes normally (returning its document id) iff
the embedding of every chunk succeeds; any chunk failure aborts the upload
with the exception. -/
theorem per_chunk_failure_policy (content : List Char)
    (oracle : ℕ → List Char → Option Emb) (s : Settings) (st : Store)
    (chunks : List (List Char)) (did : String)
    (hch : chunk_text content none none s = .ok chunks)
    (hnb : stripNonempty content = true) (hid : did ≠ "") :
    (load_and_store_documents (some content) false oracle s st).2 =
      .ok (.loaded (((List.enumFrom 0 chunks).filter
        (fun p => (oracle p.1 p.2).isSome)).length)) ∧
    ((upload_and_store_document content (some did) oracle s st).2 = .ok did ↔
      ∀ p ∈ List.enumFrom 0 chunks, (oracle p.1 p.2).isSome = true) := by
  constructor
  · simp [load_and_store_documents, hnb, hch, loadChunksLoop_count]
  · rcases hloop : uploadChunksLoop did oracle chunks 0 st with ⟨st2, res⟩
    have hiff := uploadChunksLoop_ok_iff did oracle chunks 0 st
    rw [hloop] at hiff
    simp only [upload_and_store_document, hch, if_neg hid, hloop]
    cases res with
    | ok u =>
      exact ⟨fun _ => hiff.mp rfl, fun _ => rfl⟩
    | error e =>
      constructor
      · intro hcontra
        exact Except.noConfusion hcontra
      · intro hall
        exact Except.noConfusion (hiff.mpr hall)

/-- Witness for C2 amended: chunk 1 of three fails; the load stores chunks
0 and 2 (count 2, the failure was skipped), while the upload does not
finish normally (the right side of the iff is false). -/
theorem per_chunk_failure_policy_witness :
    (load_and_store_documents (some ['a', 'b', 'c', 'd', 'e']) false
        (fun i _ => if i = 1 then none else some [1])
        { chunkSize := 3, chunkOverlap := 1 } []).2 = .ok (.loaded 2) ∧
    ((upload_and_store_document ['a', 'b', 'c', 'd', 'e'] (some "d1")
        (fun i _ => if i = 1 then none else some [1])
        { chunkSize := 3, chunkOverlap := 1 } []).2 = .ok "d1" ↔
      ∀ p ∈ List.enumFrom 0 [['a', 'b', 'c'], ['c', 'd', 'e'], ['e']],
        (((fun i (_ : List Char) => if i = 1 then none else some [(1 : ℚ)]) :
          ℕ → List Char → Option Emb) p.1 p.2).isSome = true) :=
  per_chunk_failure_policy ['a', 'b', 'c', 'd', 'e']
    (fun i _ => if i = 1 then none else some [1])
    { chunkSize := 3, chunkOverlap := 1 } []
    [['a', 'b', 'c'], ['c', 'd', 'e'], ['e']] "d1" rfl (by decide) (by decide)

lemma dotList_comm : ∀ (a b : List ℝ), dotList a b = dotList b a := by
  intro a
  induction a with
  | nil =>
    intro b
    cases b <;> simp [dotList]
  | cons x as ih =>
    intro b
    cases b with
    | nil => simp [dotList]
    | cons y bs =>
      simp only [dotList, List.zip_cons_cons, List.map_cons, List.sum_cons]
      have hrec := ih bs
      simp only [dotList] at hrec
      rw [mul_comm, hrec]

/-- C8: `cosine_similarity` computes `dot(a,b) / (||a|| * ||b||)` and
returns 0 whenever either vector has zero norm; consequently it is
symmetric for vectors of equal length, and the cosine of a zero vector
against anything is 0. -/
theorem cosine_similarity_spec (a b : List ℝ) (n : ℕ) :
    (l2norm a = 0 ∨ l2norm b = 0 → cosine_similarity a b = 0) ∧
    (l2norm a ≠ 0 → l2norm b ≠ 0 →
      cosine_similarity a b = dotList a b / (l2norm a * l2norm b)) ∧
    (a.length = b.length → cosine_similarity a b = cosine_similarity b a) ∧
    cosine_similarity (List.replicate n 0) b = 0 := by
  refine ⟨fun h => ?_, fun ha hb => ?_, fun _ => ?_, ?_⟩
  · unfold cosine_similarity
    rw [if_pos h]
  · unfold cosine_similarity
    rw [if_neg (by tauto)]
  · unfold cosine_similarity
    by_cases h : l2norm a = 0 ∨ l2norm b = 0
    · rw [if_pos h, if_pos (Or.symm h)]
    · rw [if_neg h, if_neg (fun hc => h (Or.symm hc)), dotList_comm, mul_comm]
  · have hz : l2norm (List.replicate n (0 : ℝ)) = 0 := by
      unfold l2norm
      rw [List.map_replicate]
      simp [List.sum_replicate]
    unfold cosine_similarity
    rw [if_pos (Or.inl hz)]

/-- Witness for C8: the zero-norm case and symmetry at concrete vectors. -/
theorem cosine_similarity_spec_witness :
    cosine_similarity [(0 : ℝ)] [1] = 0 ∧
    cosine_similarity [(1 : ℝ), 2] [2, 1] = cosine_similarity [2, 1] [(1 : ℝ), 2] :=
  ⟨(cosine_similarity_spec [0] [1] 0).1 (Or.inl (by norm_num [l2norm])),
   (cosine_similarity_spec [1, 2] [2, 1] 0).2.2.1 (by norm_num)⟩
